import Mathlib

/-!
# Verification of the `vedyut` Grammar-RAG subsystem

Shallow embedding of `src/python/vedyut/llm/rag.py` (class `GrammarRAG` and
the dataclass `GrammarChunk`) and of the response handling of
`disambiguate_segmentation` in `src/python/vedyut/llm/tasks.py`.

Modelling conventions:
* Python floats are modelled as `ℚ`; `np.linalg.norm` involves a square
  root, which is not rational, so the square-root function is an explicit
  parameter `sqrtQ : ℚ → ℚ` of the similarity model (a faithful
  instantiation agrees with `√` on the values that actually occur).
* IEEE NaN/Inf values produced by numpy's elementwise division on a zero
  denominator (numpy emits a warning, it does not raise) are modelled by
  `Option ℚ` with `none` for the non-finite outcome.
* `json.dump`/`json.load` round-trip Python floats exactly, so the JSON
  number model carries `ℚ` directly.
* Python exceptions that a function raises are modelled by `Except String`;
  Python functions that cannot raise are total Lean functions.
-/

namespace Vedyut

/-- The dataclass `GrammarChunk` of `rag.py` (lines 26-36), field for field.
`sutra_number` is the "reference" of the specification; `embedding` is
absent (`None`) until an index build attaches it. -/
structure GrammarChunk where
  id : String
  text : String
  source : String
  sutra_number : Option String := none
  topic : Option String := none
  language : String := "sanskrit"
  embedding : Option (List ℚ) := none
deriving DecidableEq, Repr

instance : Inhabited GrammarChunk :=
  ⟨{ id := "", text := "", source := "" }⟩

/-- The mutable retrieval state of a `GrammarRAG` object: the loaded chunk
list `self.chunks` and the embedding matrix `self.chunk_embeddings`
(`None` before `build_index`, one row per chunk afterwards). -/
structure GrammarRAG where
  chunks : List GrammarChunk
  chunk_embeddings : Option (List (List ℚ))
deriving DecidableEq, Repr

/-! ## Similarity (rag.py lines 268-271) -/

/-- `np.dot` of two vectors (the matrix-vector product is this, row by row). -/
def dotQ (xs ys : List ℚ) : ℚ :=
  (List.zipWith (· * ·) xs ys).sum

/-- Squared euclidean norm; `np.linalg.norm xs = √(normSq xs)`, and the
float square root is zero exactly on input zero. -/
def normSq (xs : List ℚ) : ℚ :=
  dotQ xs xs

/-- One entry of `similarities` (rag.py line 269-271):
`np.dot(E[i], q) / (np.linalg.norm(E[i]) * np.linalg.norm(q))`.
The square root of the float norm is abstracted by `sqrtQ`.  When the
denominator is zero numpy's division yields NaN (for `0/0`) or Inf, with a
runtime warning but **no exception**; that non-finite outcome is `none`.
There is no guard around the division in the source. -/
def cosineSim (sqrtQ : ℚ → ℚ) (e q : List ℚ) : Option ℚ :=
  let den := sqrtQ (normSq e) * sqrtQ (normSq q)
  if den = 0 then none else some (dotQ e q / den)

/-- The similarity value in the non-degenerate regime (denominator
nonzero), as a total function, used to instantiate the abstract similarity
parameter of `query` on concrete examples. -/
def simVal (sqrtQ : ℚ → ℚ) (e q : List ℚ) : ℚ :=
  dotQ e q / (sqrtQ (normSq e) * sqrtQ (normSq q))

/-! ## Filtering and selection (rag.py lines 273-290) -/

/-- The body of the filter loop (rag.py lines 275-280): chunk `c` is kept
when no given filter rejects it.  Python's `if topic and chunk.topic != topic`
skips `c` when a topic filter is given and `c.topic` differs (a chunk with
`topic = None` differs from every given filter string); likewise for
`language`. -/
def chunkPasses (c : GrammarChunk) (topic language : Option String) : Bool :=
  (match topic with
   | none => true
   | some t => c.topic == some t)
  &&
  (match language with
   | none => true
   | some l => c.language == l)

/-- `filtered_indices` (rag.py lines 274-280): the indices `i` of chunks
passing both filters, in increasing order (the loop enumerates
`self.chunks`). -/
def filtered_indices (chunks : List GrammarChunk) (topic language : Option String) :
    List ℕ :=
  ((chunks.enum.filter fun ic => chunkPasses ic.2 topic language).map Prod.fst)

/-- Insert a pair into a descending-by-score list, after every element of
score `≥` its own.  Folding this over the pairs in their original order is
Python's stable `sorted(..., key=lambda x: x[1], reverse=True)`: equal
scores keep their original relative order. -/
def insortDesc (p : ℕ × ℚ) : List (ℕ × ℚ) → List (ℕ × ℚ)
  | [] => [p]
  | q :: qs => if q.2 ≥ p.2 then q :: insortDesc p qs else p :: q :: qs

/-- Stable descending sort by score (rag.py line 285). -/
def sortedDesc (l : List (ℕ × ℚ)) : List (ℕ × ℚ) :=
  l.foldl (fun acc p => insortDesc p acc) []

/-- Insert a pair into an ascending-by-score list, after every element of
score `≤` its own (the stable ascending counterpart of `insortDesc`). -/
def insortAsc (p : ℕ × ℚ) : List (ℕ × ℚ) → List (ℕ × ℚ)
  | [] => [p]
  | q :: qs => if q.2 ≤ p.2 then q :: insortAsc p qs else p :: q :: qs

/-- Stable ascending sort by score. -/
def sortedAsc (l : List (ℕ × ℚ)) : List (ℕ × ℚ) :=
  l.foldl (fun acc p => insortAsc p acc) []

/-- `np.argsort(similarities)` (rag.py line 287): the indices that order the
similarity values ascending.  numpy guarantees only the ascending value
order; the tie order of the default `kind='quicksort'` is **unspecified**
above numpy's small-sort threshold (~16 elements), below which it runs a
stable insertion sort.  This model fixes the stable (increasing-index) tie
order that numpy exhibits in that small regime.  The fixed tie order is a
modelling choice, not a program guarantee: no universal theorem below
depends on it (ranking theorems assert only the value order, or assume
pairwise-distinct scores, under which every valid argsort agrees), and it
is relied on only to evaluate concrete instances of at most two elements,
where it is exact. -/
def argsort (sims : List ℚ) : List ℕ :=
  (sortedAsc sims.enum).map Prod.fst

/-- The candidate selection of `query` (rag.py lines 273-288) given the
similarity vector: filter, then either stable-descending-sort the filtered
`(index, score)` pairs and truncate, or — when no chunk passed the filters —
take the first `top_k` of `np.argsort(similarities)[::-1]` and pair each
index with its score. -/
def querySelect (chunks : List GrammarChunk) (sims : List ℚ) (top_k : ℕ)
    (topic language : Option String) : List (ℕ × ℚ) :=
  if (filtered_indices chunks topic language).isEmpty then
    (((argsort sims).reverse).take top_k).map fun i => (i, sims.getD i 0)
  else
    (sortedDesc ((filtered_indices chunks topic language).map
      fun i => (i, sims.getD i 0))).take top_k

/-- `GrammarRAG.query` (rag.py lines 243-290).  `embed_single` abstracts
`self.llm.embed_single`; `sim` abstracts the cosine-similarity value of one
embedding row against the query vector (rag.py lines 269-271, the
non-degenerate regime of `cosineSim`).  An unbuilt index
(`self.chunk_embeddings is None`) raises `ValueError` (line 262), modelled
as `Except.error`. -/
def query (embed_single : String → List ℚ) (sim : List ℚ → List ℚ → ℚ)
    (rag : GrammarRAG) (query_text : String) (top_k : ℕ)
    (topic language : Option String) :
    Except String (List (GrammarChunk × ℚ)) :=
  match rag.chunk_embeddings with
  | none => .error "Index not built. Run build_index() first."
  | some E =>
      let query_vec := embed_single query_text
      let similarities := E.map fun e => sim e query_vec
      .ok ((querySelect rag.chunks similarities top_k topic language).map
        fun p => (rag.chunks.getD p.1 default, p.2))

/-- State-passing form of `query`: the method body (rag.py lines 243-290)
only reads `self.chunks` and `self.chunk_embeddings` and assigns to no
attribute of `self`, so its embedding returns the state it was given
alongside the result. -/
def queryST (embed_single : String → List ℚ) (sim : List ℚ → List ℚ → ℚ)
    (rag : GrammarRAG) (query_text : String) (top_k : ℕ)
    (topic language : Option String) :
    GrammarRAG × Except String (List (GrammarChunk × ℚ)) :=
  (rag, query embed_single sim rag query_text top_k topic language)

/-! ## Persistence (rag.py lines 226-241) -/

/-- JSON values, as `json.dump`/`json.load` exchange them.  Python floats
round-trip exactly through `json`, so numbers carry `ℚ`. -/
inductive Json where
  | null : Json
  | str : String → Json
  | num : ℚ → Json
  | arr : List Json → Json
  | obj : List (String × Json) → Json
deriving Repr

/-- `asdict` on an optional string field: Python `None` serializes to
JSON `null`. -/
def encodeOptStr : Option String → Json
  | none => .null
  | some s => .str s

/-- `asdict` on the `embedding` field: `None` or a list of floats. -/
def encodeEmbedding : Option (List ℚ) → Json
  | none => .null
  | some v => .arr (v.map .num)

/-- `asdict(chunk)` (rag.py line 230): every dataclass field is emitted,
absent optional fields as `null`. -/
def encodeChunk (c : GrammarChunk) : Json :=
  .obj [("id", .str c.id), ("text", .str c.text), ("source", .str c.source),
        ("sutra_number", encodeOptStr c.sutra_number), ("topic", encodeOptStr c.topic),
        ("language", .str c.language), ("embedding", encodeEmbedding c.embedding)]

/-- `GrammarRAG._save_index` (rag.py lines 226-233): the serialized
artifact `{"chunks": [...], "version": "1.0"}`. -/
def save_index (chunks : List GrammarChunk) : Json :=
  .obj [("chunks", .arr (chunks.map encodeChunk)), ("version", .str "1.0")]

/-- Reading a required string field for `GrammarChunk(**chunk)`. -/
def decodeStr : Json → Option String
  | .str s => some s
  | _ => none

/-- Reading an optional string field: JSON `null` is Python `None`. -/
def decodeOptStr : Json → Option (Option String)
  | .null => some none
  | .str s => some (some s)
  | _ => none

/-- Reading one number of an embedding vector. -/
def decodeNum : Json → Option ℚ
  | .num q => some q
  | _ => none

/-- Reading every number of an embedding vector, failing on the first
non-number. -/
def decodeNums : List Json → Option (List ℚ)
  | [] => some []
  | j :: js => (decodeNum j).bind fun q => (decodeNums js).map fun qs => q :: qs

/-- Reading the `embedding` field: `null` or a list of numbers. -/
def decodeEmbedding : Json → Option (Option (List ℚ))
  | .null => some none
  | .arr l => (decodeNums l).map some
  | _ => none

/-- The dataclass field names of `GrammarChunk`. -/
def chunkFieldNames : List String :=
  ["id", "text", "source", "sutra_number", "topic", "language", "embedding"]

/-- `GrammarChunk(**chunk)` (rag.py line 240): each keyword must be a
dataclass field (an unexpected keyword raises `TypeError`, `none` here) and
the three required string fields must be present. -/
def decodeChunk : Json → Option GrammarChunk
  | .obj kvs =>
    if kvs.all fun kv => chunkFieldNames.contains kv.1 then do
      let id ← (kvs.lookup "id").bind decodeStr
      let text ← (kvs.lookup "text").bind decodeStr
      let source ← (kvs.lookup "source").bind decodeStr
      let sutra_number ← decodeOptStr ((kvs.lookup "sutra_number").getD .null)
      let topic ← decodeOptStr ((kvs.lookup "topic").getD .null)
      let language ← decodeStr ((kvs.lookup "language").getD (.str "sanskrit"))
      let embedding ← decodeEmbedding ((kvs.lookup "embedding").getD .null)
      some { id := id, text := text, source := source, sutra_number := sutra_number,
             topic := topic, language := language, embedding := embedding }
    else none
  | _ => none

/-- The list comprehension `[GrammarChunk(**chunk) for chunk in data["chunks"]]`
(rag.py line 240), failing on the first malformed element. -/
def decodeChunks : List Json → Option (List GrammarChunk)
  | [] => some []
  | j :: js => (decodeChunk j).bind fun c => (decodeChunks js).map fun cs => c :: cs

/-- `GrammarRAG._load_index` (rag.py lines 235-241): parse `data["chunks"]`
into chunks and rebuild `self.chunk_embeddings` as
`np.array([chunk.embedding for chunk in self.chunks])`.  Nothing else in
`data` is consulted — in particular the `"version"` entry is never read.
A chunk whose `embedding` is `null` contributes a degenerate row (numpy
would build a non-numeric object array); `getD []` stands for that
degenerate case, which a built artifact never contains. -/
def load_index (j : Json) : Option GrammarRAG :=
  match j with
  | .obj kvs =>
    (kvs.lookup "chunks").bind fun chunksJson =>
      match chunksJson with
      | .arr l =>
        (decodeChunks l).bind fun chunks =>
          some { chunks := chunks,
                 chunk_embeddings := some (chunks.map fun c => c.embedding.getD []) }
      | _ => none
  | _ => none

/-! ## Structured-record loading (rag.py lines 122-163) -/

/-- One record of a structured JSON rule file, with every field optional
(Python reads them with `rule.get(...)` / `"k" in rule`). -/
structure RuleRecord where
  sutra : Option String := none
  sanskrit : Option String := none
  transliteration : Option String := none
  english : Option String := none
  explanation : Option String := none
  topic : Option String := none
deriving DecidableEq, Repr

/-- The chunks contributed by record number `i` of file stem `stem`
(rag.py lines 141-163): one per present language field, Sanskrit first.
The chunk text is `f"{rule.get('sutra', '')}: {text}\n{rule.get('explanation', '')}"`;
`sutra` and `topic` are copied through via `rule.get` (absent ↦ `None`). -/
def ruleChunks (stem : String) (i : ℕ) (rule : RuleRecord) : List GrammarChunk :=
  (match rule.sanskrit with
   | some sa =>
     [{ id := stem ++ "_" ++ toString i ++ "_sa",
        text := rule.sutra.getD "" ++ ": " ++ sa ++ "\n" ++ rule.explanation.getD "",
        source := stem, sutra_number := rule.sutra, topic := rule.topic,
        language := "sanskrit", embedding := none }]
   | none => []) ++
  (match rule.english with
   | some en =>
     [{ id := stem ++ "_" ++ toString i ++ "_en",
        text := rule.sutra.getD "" ++ ": " ++ en ++ "\n" ++ rule.explanation.getD "",
        source := stem, sutra_number := rule.sutra, topic := rule.topic,
        language := "english", embedding := none }]
   | none => [])

/-- `GrammarRAG._load_json_file` over an already-parsed record list: the
chunks appended to `self.chunks`, in file order. -/
def load_json_file (stem : String) (data : List RuleRecord) : List GrammarChunk :=
  data.enum.flatMap fun ir => ruleChunks stem ir.1 ir.2

/-! ## Index build (rag.py lines 187-224) -/

/-- The batch slices `texts[i : i + batch_size]` for
`i in range(0, len(texts), batch_size)` (rag.py lines 207-211).  The source
fixes `batch_size = 100`; the size is kept as a parameter to state batch
independence.  (Python's `range` with step 0 raises; `bs = 0` returns `[]`
here and every theorem assumes `0 < bs`.) -/
def batches (texts : List String) (bs : ℕ) : List (List String) :=
  if texts.isEmpty ∨ bs = 0 then []
  else texts.take bs :: batches (texts.drop bs) bs
termination_by texts.length
decreasing_by
  rename_i h
  push_neg at h
  obtain ⟨h1, h2⟩ := h
  have h1' : texts ≠ [] := by simpa using h1
  have hpos : 0 < texts.length := List.length_pos.mpr h1'
  simp only [List.length_drop]
  omega

/-- The accumulation loop `all_embeddings.extend(self.llm.embed(batch))`
(rag.py lines 208-213): batches are issued in order and their result
vectors concatenated positionally. -/
def all_embeddings (embed : List String → List (List ℚ))
    (texts : List String) (bs : ℕ) : List (List ℚ) :=
  (batches texts bs).flatMap embed

/-- `GrammarRAG.build_index` on the rebuild path (no existing artifact, or
`force_rebuild=True`; the cache-hit short-circuit of lines 194-197 is
`load_index` above).  With no chunks the method prints and returns with the
state unchanged (lines 199-201).  Otherwise each chunk receives its
positional vector (`zip` mutates only the first `min` chunks when lengths
disagree) and the embedding matrix is set (lines 203-220). -/
def build_index (embed : List String → List (List ℚ)) (rag : GrammarRAG)
    (bs : ℕ) : GrammarRAG :=
  if rag.chunks.isEmpty then rag
  else
    { chunks := (rag.chunks.zipWith (fun c e => { c with embedding := some e })
          (all_embeddings embed (rag.chunks.map fun c => c.text) bs))
        ++ rag.chunks.drop
            (all_embeddings embed (rag.chunks.map fun c => c.text) bs).length,
      chunk_embeddings := some (all_embeddings embed (rag.chunks.map fun c => c.text) bs) }

/-! ## Disambiguation response handling (tasks.py lines 59-65) -/

/-- Python `str.strip()`: remove leading and trailing whitespace. -/
def pyStrip (s : String) : String :=
  String.mk (((s.data.dropWhile Char.isWhitespace).reverse.dropWhile
    Char.isWhitespace).reverse)

/-- Accumulator run of `str.split()`: `acc` holds the current token's
characters in reverse; a whitespace character closes the token (empty runs
produce no token). -/
def wsTokensAux : List Char → List Char → List String
  | [], acc => if acc.isEmpty then [] else [String.mk acc.reverse]
  | c :: cs, acc =>
    if c.isWhitespace then
      if acc.isEmpty then wsTokensAux cs []
      else String.mk acc.reverse :: wsTokensAux cs []
    else wsTokensAux cs (c :: acc)

/-- Python `str.split()` with no argument: split on whitespace runs,
discarding empty pieces. -/
def pySplit (s : String) : List String :=
  wsTokensAux s.data []

/-- Numeric value of a digit string. -/
def digitsToNat (cs : List Char) : ℕ :=
  cs.foldl (fun acc c => 10 * acc + (c.toNat - '0'.toNat)) 0

/-- Python `int(token)` on a whitespace-free token: an optional sign
followed by at least one decimal digit, else `ValueError` (`none`).
(Underscore digit separators and non-ASCII decimal digits, which CPython
also accepts, are not modelled; every unmodelled input parses as `none`,
i.e. takes the same default path as any other `ValueError`.) -/
def pyInt (s : String) : Option ℤ :=
  match s.data with
  | '+' :: rest =>
    if rest ≠ [] ∧ rest.all Char.isDigit then some (digitsToNat rest : ℤ) else none
  | '-' :: rest =>
    if rest ≠ [] ∧ rest.all Char.isDigit then some (-(digitsToNat rest : ℤ)) else none
  | cs =>
    if cs ≠ [] ∧ cs.all Char.isDigit then some (digitsToNat cs : ℤ) else none

/-- The parse `int(response.strip().split()[0])` (tasks.py line 62):
`none` covers both the `IndexError` (no token) and the `ValueError`
(non-numeric token) of the `try` block. -/
def parseResponseNumber (response : String) : Option ℤ :=
  ((pySplit (pyStrip response)).head?).bind pyInt

/-- The result of `disambiguate_segmentation` as a function of the raw
completion response and the candidate count (tasks.py lines 59-65): a
failed parse returns `0` (first candidate); a parsed `number` is clamped
into range by `max(0, min(number - 1, len(candidates) - 1))`. -/
def disambiguateChoice (response : String) (numCandidates : ℕ) : ℤ :=
  match parseResponseNumber response with
  | none => 0
  | some number => max 0 (min (number - 1) ((numCandidates : ℤ) - 1))

/-! ## Ordering relations on `(index, score)` pairs -/

/-- Ascending score order with ties in ascending index order. -/
def keyAsc (a b : ℕ × ℚ) : Prop :=
  a.2 < b.2 ∨ (a.2 = b.2 ∧ a.1 < b.1)

/-- Descending score order with ties in **ascending** index order — the
order of Python's stable `sorted(..., reverse=True)` over pairs listed in
increasing index order. -/
def keyDesc (a b : ℕ × ℚ) : Prop :=
  b.2 < a.2 ∨ (a.2 = b.2 ∧ a.1 < b.1)

instance : DecidableRel keyAsc := fun a b => by
  unfold keyAsc; infer_instance

instance : DecidableRel keyDesc := fun a b => by
  unfold keyDesc; infer_instance

/-! ## Concrete instances used to evaluate the definitions -/

/-- A rational stand-in for the float square root that agrees with `√` on
`0` and `1`, the only squared norms occurring in the concrete instances
below (`√0 = 0`, `√1 = 1`). -/
def sqrtW : ℚ → ℚ := fun x => x

/-- A first concrete chunk (no topic, no language tag beyond the default). -/
def cW0 : GrammarChunk :=
  { id := "a_0", text := "first paragraph", source := "a" }

/-- A second concrete chunk. -/
def cW1 : GrammarChunk :=
  { id := "a_1", text := "second paragraph", source := "a" }

/-- A built two-chunk index whose rows give **distinct** similarity scores
against the query vector `[1]` under the dot-product similarity. -/
def ragW : GrammarRAG :=
  { chunks := [cW0, cW1], chunk_embeddings := some [[1], [2]] }

/-- A built two-chunk index whose rows give **equal** similarity scores
against the query vector `[1]`: both embeddings are `[1]`, so both cosine
similarities are exactly `1` (all norms are `1`, where `sqrtW` is exact). -/
def ragTie : GrammarRAG :=
  { chunks := [cW0, cW1], chunk_embeddings := some [[1], [1]] }

/-- The structured record of the spec's scenario. -/
def ruleC7 : RuleRecord :=
  { sutra := some "1.1.1", sanskrit := some "वृद्धिरादैच्",
    english := some "a,ai,au are vṛddhi", topic := some "sandhi" }

/-- A concrete chunk with an attached embedding, for the round-trip
instance. -/
def cEmb : GrammarChunk :=
  { id := "b_0", text := "t", source := "b", sutra_number := some "1.1.1",
    topic := some "sandhi", language := "english", embedding := some [1/2, 3] }

/-! ## Structural lemmas about the two insertion sorts -/

open List

theorem insortDesc_perm (p : ℕ × ℚ) (l : List (ℕ × ℚ)) :
    insortDesc p l ~ p :: l := by
  induction l with
  | nil => exact List.Perm.refl _
  | cons q qs ih =>
    simp only [insortDesc]
    split
    · exact (ih.cons q).trans (List.Perm.swap p q qs)
    · exact List.Perm.refl _

theorem insortAsc_perm (p : ℕ × ℚ) (l : List (ℕ × ℚ)) :
    insortAsc p l ~ p :: l := by
  induction l with
  | nil => exact List.Perm.refl _
  | cons q qs ih =>
    simp only [insortAsc]
    split
    · exact (ih.cons q).trans (List.Perm.swap p q qs)
    · exact List.Perm.refl _

theorem foldl_insortDesc_perm (l acc : List (ℕ × ℚ)) :
    l.foldl (fun acc p => insortDesc p acc) acc ~ l ++ acc := by
  induction l generalizing acc with
  | nil => simp
  | cons p ps ih =>
    simp only [List.foldl_cons, List.cons_append]
    calc ps.foldl (fun acc p => insortDesc p acc) (insortDesc p acc)
        ~ ps ++ insortDesc p acc := ih _
      _ ~ ps ++ (p :: acc) := List.Perm.append_left ps (insortDesc_perm p acc)
      _ ~ p :: (ps ++ acc) := List.perm_middle

theorem foldl_insortAsc_perm (l acc : List (ℕ × ℚ)) :
    l.foldl (fun acc p => insortAsc p acc) acc ~ l ++ acc := by
  induction l generalizing acc with
  | nil => simp
  | cons p ps ih =>
    simp only [List.foldl_cons, List.cons_append]
    calc ps.foldl (fun acc p => insortAsc p acc) (insortAsc p acc)
        ~ ps ++ insortAsc p acc := ih _
      _ ~ ps ++ (p :: acc) := List.Perm.append_left ps (insortAsc_perm p acc)
      _ ~ p :: (ps ++ acc) := List.perm_middle

theorem sortedDesc_perm (l : List (ℕ × ℚ)) : sortedDesc l ~ l := by
  simpa using foldl_insortDesc_perm l []

theorem sortedAsc_perm (l : List (ℕ × ℚ)) : sortedAsc l ~ l := by
  simpa using foldl_insortAsc_perm l []

theorem insortDesc_pairwise (p : ℕ × ℚ) (acc : List (ℕ × ℚ))
    (h : acc.Pairwise keyDesc) (hlt : ∀ q ∈ acc, q.1 < p.1) :
    (insortDesc p acc).Pairwise keyDesc := by
  induction acc with
  | nil => simp [insortDesc]
  | cons q qs ih =>
    rw [List.pairwise_cons] at h
    obtain ⟨hq, hqs⟩ := h
    simp only [insortDesc]
    split
    · rename_i hge
      rw [List.pairwise_cons]
      refine ⟨fun r hr => ?_, ih hqs fun r hr => hlt r (List.mem_cons_of_mem q hr)⟩
      rcases List.mem_cons.mp ((insortDesc_perm p qs).mem_iff.mp hr) with h1 | h2
      · subst h1
        rcases lt_or_eq_of_le hge with h3 | h3
        · exact Or.inl h3
        · exact Or.inr ⟨h3.symm, hlt q (List.mem_cons_self q qs) ⟩
      · exact hq r h2
    · rename_i hg
      push_neg at hg
      rw [List.pairwise_cons]
      refine ⟨fun r hr => ?_, List.Pairwise.cons hq hqs⟩
      rcases List.mem_cons.mp hr with h1 | h2
      · exact Or.inl (h1 ▸ hg)
      · rcases hq r h2 with h3 | h3
        · exact Or.inl (h3.trans hg)
        · exact Or.inl (h3.1 ▸ hg)

theorem insortAsc_pairwise (p : ℕ × ℚ) (acc : List (ℕ × ℚ))
    (h : acc.Pairwise keyAsc) (hlt : ∀ q ∈ acc, q.1 < p.1) :
    (insortAsc p acc).Pairwise keyAsc := by
  induction acc with
  | nil => simp [insortAsc]
  | cons q qs ih =>
    rw [List.pairwise_cons] at h
    obtain ⟨hq, hqs⟩ := h
    simp only [insortAsc]
    split
    · rename_i hge
      rw [List.pairwise_cons]
      refine ⟨fun r hr => ?_, ih hqs fun r hr => hlt r (List.mem_cons_of_mem q hr)⟩
      rcases List.mem_cons.mp ((insortAsc_perm p qs).mem_iff.mp hr) with h1 | h2
      · subst h1
        rcases lt_or_eq_of_le hge with h3 | h3
        · exact Or.inl h3
        · exact Or.inr ⟨h3, hlt q (List.mem_cons_self q qs)⟩
      · exact hq r h2
    · rename_i hg
      push_neg at hg
      rw [List.pairwise_cons]
      refine ⟨fun r hr => ?_, List.Pairwise.cons hq hqs⟩
      rcases List.mem_cons.mp hr with h1 | h2
      · exact Or.inl (h1 ▸ hg)
      · rcases hq r h2 with h3 | h3
        · exact Or.inl (hg.trans h3)
        · exact Or.inl (h3.1 ▸ hg)

theorem foldl_insortDesc_pairwise (l : List (ℕ × ℚ)) :
    ∀ acc, acc.Pairwise keyDesc → (∀ q ∈ acc, ∀ p ∈ l, q.1 < p.1) →
    l.Pairwise (fun a b => a.1 < b.1) →
    (l.foldl (fun acc p => insortDesc p acc) acc).Pairwise keyDesc := by
  induction l with
  | nil => intro acc hacc _ _; simpa using hacc
  | cons p ps ih =>
    intro acc hacc hsep hl
    rw [List.pairwise_cons] at hl
    simp only [List.foldl_cons]
    apply ih
    · exact insortDesc_pairwise p acc hacc fun q hq => hsep q hq p (List.mem_cons_self p ps)
    · intro q hq r hr
      rcases List.mem_cons.mp ((insortDesc_perm p acc).mem_iff.mp hq) with h1 | h2
      · exact h1 ▸ hl.1 r hr
      · exact hsep q h2 r (List.mem_cons_of_mem p hr)
    · exact hl.2

theorem foldl_insortAsc_pairwise (l : List (ℕ × ℚ)) :
    ∀ acc, acc.Pairwise keyAsc → (∀ q ∈ acc, ∀ p ∈ l, q.1 < p.1) →
    l.Pairwise (fun a b => a.1 < b.1) →
    (l.foldl (fun acc p => insortAsc p acc) acc).Pairwise keyAsc := by
  induction l with
  | nil => intro acc hacc _ _; simpa using hacc
  | cons p ps ih =>
    intro acc hacc hsep hl
    rw [List.pairwise_cons] at hl
    simp only [List.foldl_cons]
    apply ih
    · exact insortAsc_pairwise p acc hacc fun q hq => hsep q hq p (List.mem_cons_self p ps)
    · intro q hq r hr
      rcases List.mem_cons.mp ((insortAsc_perm p acc).mem_iff.mp hq) with h1 | h2
      · exact h1 ▸ hl.1 r hr
      · exact hsep q h2 r (List.mem_cons_of_mem p hr)
    · exact hl.2

theorem sortedDesc_pairwise (l : List (ℕ × ℚ))
    (hl : l.Pairwise fun a b => a.1 < b.1) :
    (sortedDesc l).Pairwise keyDesc :=
  foldl_insortDesc_pairwise l [] (List.Pairwise.nil) (by simp) hl

theorem sortedAsc_pairwise (l : List (ℕ × ℚ))
    (hl : l.Pairwise fun a b => a.1 < b.1) :
    (sortedAsc l).Pairwise keyAsc :=
  foldl_insortAsc_pairwise l [] (List.Pairwise.nil) (by simp) hl

/-! ## Enumeration and filtering utilities -/

theorem enum_pairwise {α : Type} (l : List α) :
    l.enum.Pairwise fun a b => a.1 < b.1 := by
  have h : (l.enum.map Prod.fst).Pairwise (· < ·) := by
    rw [List.enum_map_fst]
    exact List.pairwise_lt_range _
  exact List.pairwise_map.mp h

theorem getD_of_mem_enum {l : List ℚ} {p : ℕ × ℚ} (h : p ∈ l.enum) :
    l.getD p.1 0 = p.2 := by
  rw [List.getD_eq_getElem?_getD, List.mem_enum_iff_getElem?.mp h]
  rfl

theorem enum_pairwise_snd_ne (sims : List ℚ) (h : sims.Nodup) :
    sims.enum.Pairwise fun a b => a.2 ≠ b.2 := by
  have h2 : (sims.enum.map Prod.snd).Pairwise (· ≠ ·) := by
    rw [List.enum_map_snd]
    exact h
  exact List.pairwise_map.mp h2

theorem filtered_indices_pairwise (chunks : List GrammarChunk)
    (topic language : Option String) :
    (filtered_indices chunks topic language).Pairwise (· < ·) := by
  unfold filtered_indices
  refine List.pairwise_map.mpr ?_
  exact List.Pairwise.sublist (List.filter_sublist _) (enum_pairwise chunks)

theorem filtered_indices_none (chunks : List GrammarChunk) :
    filtered_indices chunks none none = List.range chunks.length := by
  unfold filtered_indices
  have hf : List.filter (fun ic => chunkPasses ic.2 none none) chunks.enum
      = chunks.enum :=
    List.filter_eq_self.mpr fun a _ => rfl
  rw [hf, List.enum_map_fst]

theorem filtered_indices_eq_nil (chunks : List GrammarChunk)
    (topic language : Option String)
    (h : ∀ c ∈ chunks, chunkPasses c topic language = false) :
    filtered_indices chunks topic language = [] := by
  unfold filtered_indices
  rw [List.filter_eq_nil_iff.mpr ?_]
  · rfl
  · intro a ha
    have hc : a.2 ∈ chunks := List.getElem?_mem (List.mem_enum_iff_getElem?.mp ha)
    simp [h a.2 hc]

theorem range_map_getD_enum (sims : List ℚ) :
    (List.range sims.length).map (fun i => (i, sims.getD i 0)) = sims.enum := by
  apply List.ext_getElem
  · simp
  · intro n h1 h2
    simp only [List.getElem_map, List.getElem_range, List.getElem_enum]
    have hn : n < sims.length := by simpa using h1
    rw [List.getD_eq_getElem sims 0 hn]

theorem argsort_map_pair (sims : List ℚ) :
    (argsort sims).map (fun i => (i, sims.getD i 0)) = sortedAsc sims.enum := by
  unfold argsort
  rw [List.map_map]
  have hcongr : ∀ p ∈ sortedAsc sims.enum,
      ((fun i => (i, sims.getD i 0)) ∘ Prod.fst) p = id p := by
    intro p hp
    have hmem : p ∈ sims.enum := (sortedAsc_perm sims.enum).mem_iff.mp hp
    simp only [Function.comp_apply, id_eq]
    rw [getD_of_mem_enum hmem]
  rw [List.map_congr_left hcongr, List.map_id]

theorem querySelect_of_filtered_nil (chunks : List GrammarChunk) (sims : List ℚ)
    (top_k : ℕ) (topic language : Option String)
    (h : filtered_indices chunks topic language = []) :
    querySelect chunks sims top_k topic language
      = ((sortedAsc sims.enum).reverse).take top_k := by
  unfold querySelect
  rw [if_pos (by simp [h]), List.map_take, List.map_reverse, argsort_map_pair]

theorem querySelect_of_filtered_ne (chunks : List GrammarChunk) (sims : List ℚ)
    (top_k : ℕ) (topic language : Option String)
    (h : filtered_indices chunks topic language ≠ []) :
    querySelect chunks sims top_k topic language
      = (sortedDesc ((filtered_indices chunks topic language).map
          fun i => (i, sims.getD i 0))).take top_k := by
  unfold querySelect
  rw [if_neg (by simp [List.isEmpty_iff, h])]

/-! ## Claim theorems -/

/-- C8: every query issued before the index has been built
(`self.chunk_embeddings is None`) fails with the explicit
`"Index not built. Run build_index() first."` error reported to the caller
(a raised `ValueError`, rag.py lines 261-262), whatever the query text,
`top_k` and filters are — it neither crashes elsewhere nor returns
results. -/
theorem query_unbuilt_not_ready (embed_single : String → List ℚ)
    (sim : List ℚ → List ℚ → ℚ) (rag : GrammarRAG) (query_text : String)
    (top_k : ℕ) (topic language : Option String)
    (h : rag.chunk_embeddings = none) :
    query embed_single sim rag query_text top_k topic language
      = .error "Index not built. Run build_index() first." := by
  unfold query
  rw [h]

/-- Witness for `query_unbuilt_not_ready` at a concrete unbuilt state. -/
theorem query_unbuilt_not_ready_witness :
    query (fun _ => [1]) dotQ { chunks := [cW0], chunk_embeddings := none }
        "how to form sandhi" 5 none none
      = .error "Index not built. Run build_index() first." :=
  query_unbuilt_not_ready _ _ _ _ _ _ _ rfl

/-- C10: `query` leaves the in-memory index state unchanged — the chunk
sequence (hence every chunk's fields, embeddings included) and the
embedding matrix are identical before and after the call, for every query
text, `top_k` and filter combination.  The method body (rag.py lines
243-290) assigns to no attribute of `self`, so its state-passing embedding
`queryST` returns the incoming state. -/
theorem query_preserves_state (embed_single : String → List ℚ)
    (sim : List ℚ → List ℚ → ℚ) (rag : GrammarRAG) (query_text : String)
    (top_k : ℕ) (topic language : Option String) :
    (queryST embed_single sim rag query_text top_k topic language).1.chunks
        = rag.chunks ∧
    (queryST embed_single sim rag query_text top_k topic language).1.chunk_embeddings
        = rag.chunk_embeddings :=
  ⟨rfl, rfl⟩

/-- C2 (code bug): `_load_index` (rag.py lines 235-241) never reads the
artifact's `"version"` entry, so an artifact carrying the unknown version
tag `"999.0"` is loaded silently and in full — there is no fatal load
error, contradicting the spec's "Version must be checked on load; unknown
versions are a fatal load error, not silently accepted" (the save side
does write a `"version": "1.0"` tag, rag.py line 230, which only makes
sense if the load side were meant to check it). -/
theorem load_index_ignores_version :
    load_index (.obj [("chunks", .arr [encodeChunk cEmb]), ("version", .str "999.0")])
      = some { chunks := [cEmb], chunk_embeddings := some [[1/2, 3]] } := by
  rfl

/-- C4 counterexample: the claim says the zero-norm case is guarded
explicitly and a degenerate similarity is a defined value.  On the
concrete all-zero query vector `[0]` against the embedding `[1]`, the
computed similarity entry is `none` — numpy's NaN from the unguarded
division `dot / (‖e‖ * ‖q‖)` with a zero denominator — not a defined
value such as `0` (`sqrtW` agrees with the float square root on the norms
`0` and `1` occurring here). -/
theorem cosineSim_zero_query_not_defined :
    cosineSim sqrtW [1] [0] = none := by
  have h : sqrtW (normSq [1]) * sqrtW (normSq [0]) = 0 := by
    norm_num [sqrtW, normSq, dotQ]
  unfold cosineSim
  simp [h]

/-- C4 (amended): the cosine-similarity computation (rag.py lines 268-271)
never raises on division by zero — numpy's elementwise division produces
NaN/Inf with a runtime warning — but there is **no explicit guard**: for
every square-root model and vectors, whenever the denominator
`‖e‖ * ‖q‖` is zero (in particular for an all-zero query vector or chunk
embedding) the resulting similarity is the undefined non-finite value
`none`, not a defined rational such as `0`. -/
theorem cosineSim_zero_denominator_nan (sqrtQ : ℚ → ℚ) (e q : List ℚ)
    (h : sqrtQ (normSq e) * sqrtQ (normSq q) = 0) :
    cosineSim sqrtQ e q = none := by
  unfold cosineSim
  simp [h]

/-- Witness for `cosineSim_zero_denominator_nan`: an all-zero chunk
embedding against the query `[1]`. -/
theorem cosineSim_zero_denominator_nan_witness :
    cosineSim sqrtW [0] [1] = none :=
  cosineSim_zero_denominator_nan sqrtW [0] [1] (by norm_num [sqrtW, normSq, dotQ])

/-- C9: for every completion response over a non-empty candidate list, the
response handling of `disambiguate_segmentation` (tasks.py lines 59-65)
always yields a valid candidate index (it is a total function — the only
exceptions the parse can raise, `ValueError`/`IndexError`, are caught):
the result lies in `[0, n)`; a response failing structural validation
(no token, or a non-numeric first token) yields the documented default
`0` (the first candidate); an out-of-range number is clamped to the first
or last candidate by `max(0, min(number - 1, len(candidates) - 1))`. -/
theorem disambiguate_response_robust (response : String) (n : ℕ) (hn : 0 < n) :
    (0 ≤ disambiguateChoice response n ∧ disambiguateChoice response n < (n : ℤ)) ∧
    (parseResponseNumber response = none → disambiguateChoice response n = 0) ∧
    (∀ m : ℤ, parseResponseNumber response = some m →
      (m < 1 → disambiguateChoice response n = 0) ∧
      ((n : ℤ) < m → disambiguateChoice response n = (n : ℤ) - 1)) := by
  rcases hp : parseResponseNumber response with _ | m
  · refine ⟨?_, fun _ => ?_, fun m hm => absurd hm (by simp)⟩
    · simp only [disambiguateChoice, hp]
      omega
    · simp only [disambiguateChoice, hp]
  · refine ⟨?_, fun h => absurd h (by simp), fun m' hm' => ?_⟩
    · simp only [disambiguateChoice, hp]
      omega
    · have hmm : m = m' := Option.some_inj.mp hm'
      subst hmm
      refine ⟨fun h1 => ?_, fun h2 => ?_⟩
      · simp only [disambiguateChoice, hp]
        omega
      · simp only [disambiguateChoice, hp]
        omega

/-- Witness for `disambiguate_response_robust` on the response `"7"` with
three candidates. -/
theorem disambiguate_response_robust_witness :
    (0 ≤ disambiguateChoice "7" 3 ∧ disambiguateChoice "7" 3 < (3 : ℤ)) ∧
    disambiguateChoice "7" 3 = (3 : ℤ) - 1 :=
  ⟨(disambiguate_response_robust "7" 3 (by decide)).1,
   ((disambiguate_response_robust "7" 3 (by decide)).2.2 7 (by decide)).2 (by decide)⟩

/-- C7: a structured record contributes exactly one chunk per populated
language field (`"sanskrit" in rule` / `"english" in rule`, rag.py lines
143-163), with the record's `sutra` (the spec's "reference") and `topic`
copied through to every contributed chunk; a record with neither language
field contributes no chunk; and the spec's scenario record
`{"sutra": "1.1.1", "sanskrit": "वृद्धिरादैच्", "english": "a,ai,au are vṛddhi",
"topic": "sandhi"}` yields exactly the two chunks below, both with
reference `"1.1.1"` and topic `"sandhi"`, one per language. -/
theorem ruleChunks_per_language (stem : String) (i : ℕ) (rule : RuleRecord) :
    ((ruleChunks stem i rule).length
        = (if rule.sanskrit.isSome then 1 else 0)
          + (if rule.english.isSome then 1 else 0)) ∧
    (∀ c ∈ ruleChunks stem i rule,
        c.sutra_number = rule.sutra ∧ c.topic = rule.topic) ∧
    (rule.sanskrit = none → rule.english = none → ruleChunks stem i rule = []) ∧
    (ruleChunks "rules" 0 ruleC7 =
      [{ id := "rules_0_sa", text := "1.1.1: वृद्धिरादैच्\n", source := "rules",
         sutra_number := some "1.1.1", topic := some "sandhi",
         language := "sanskrit", embedding := none },
       { id := "rules_0_en", text := "1.1.1: a,ai,au are vṛddhi\n", source := "rules",
         sutra_number := some "1.1.1", topic := some "sandhi",
         language := "english", embedding := none }]) := by
  obtain ⟨su, sa, tr, en, ex, tp⟩ := rule
  refine ⟨?_, ?_, ?_, by rfl⟩
  · cases sa <;> cases en <;> simp [ruleChunks]
  · intro c hc
    cases sa <;> cases en <;> simp [ruleChunks] at hc <;>
      first
        | (subst hc; exact ⟨rfl, rfl⟩)
        | (rcases hc with rfl | rfl <;> exact ⟨rfl, rfl⟩)
  · intro hsa hen
    subst hsa
    subst hen
    rfl

/-- Witness for `ruleChunks_per_language`: the scenario record's first
chunk carries the record's reference and topic. -/
theorem ruleChunks_per_language_witness :
    ((ruleChunks "rules" 0 ruleC7).getD 0 default).sutra_number = ruleC7.sutra ∧
    ((ruleChunks "rules" 0 ruleC7).getD 0 default).topic = ruleC7.topic :=
  (ruleChunks_per_language "rules" 0 ruleC7).2.1 _ (by decide)

/-! ## Batching lemmas and C5 -/

theorem batches_flatten (bs : ℕ) (hbs : 0 < bs) (texts : List String) :
    (batches texts bs).flatten = texts := by
  generalize hn : texts.length = n
  induction n using Nat.strong_induction_on generalizing texts with
  | _ n ih =>
    rw [batches]
    by_cases he : texts.isEmpty ∨ bs = 0
    · rw [if_pos he]
      rcases he with he | he
      · simp [List.isEmpty_iff.mp he]
      · exact absurd he (by omega)
    · rw [if_neg he]
      push_neg at he
      have hne : texts ≠ [] := by simpa using he.1
      have hpos : 0 < texts.length := List.length_pos.mpr hne
      have hlt : (texts.drop bs).length < n := by
        rw [List.length_drop]
        omega
      rw [List.flatten_cons, ih _ hlt (texts.drop bs) rfl]
      exact List.take_append_drop bs texts

theorem all_embeddings_pointwise (f : String → List ℚ) (texts : List String)
    (bs : ℕ) (hbs : 0 < bs) :
    all_embeddings (fun b => b.map f) texts bs = texts.map f := by
  unfold all_embeddings
  rw [List.flatMap_def, ← List.map_flatten, batches_flatten bs hbs texts]

/-- C5: for every chunk set and every deterministic embed capability
mapping each input text to a vector (`embed(batch) = [f(t) for t in batch]`),
after the rebuild path of `build_index` the `i`-th chunk's stored embedding
is `f(chunks[i].text)` for **every** positive batch size: the slicing loop
(rag.py lines 207-213) issues the batches in order and `extend` concatenates
the result vectors positionally, and the `zip` (line 217) matches vectors
to chunks by position. -/
theorem build_index_batch_integrity (f : String → List ℚ) (rag : GrammarRAG)
    (bs : ℕ) (hbs : 0 < bs) (i : ℕ) (hi : i < rag.chunks.length) :
    ((build_index (fun b => b.map f) rag bs).chunks.getD i default).embedding
      = some (f ((rag.chunks.getD i default).text)) := by
  have hne : ¬ (rag.chunks.isEmpty = true) := by
    intro h
    rw [List.isEmpty_iff.mp h] at hi
    simp at hi
  have hemb : all_embeddings (fun b => b.map f) (rag.chunks.map fun c => c.text) bs
      = rag.chunks.map fun c => f c.text := by
    rw [all_embeddings_pointwise f _ bs hbs, List.map_map]
    rfl
  have hzip : rag.chunks.zipWith (fun c e => { c with embedding := some e })
        (rag.chunks.map fun c => f c.text)
      = rag.chunks.map fun c => { c with embedding := some (f c.text) } := by
    rw [List.zipWith_map_right, List.zipWith_same]
  unfold build_index
  rw [if_neg hne, hemb, hzip]
  simp only [List.length_map, List.drop_length, List.append_nil]
  rw [List.getD_eq_getElem _ _ (by simpa using hi), List.getElem_map,
    List.getD_eq_getElem _ _ hi]

/-- Witness for `build_index_batch_integrity`: batch size 1 on the
two-chunk index, embedding each text to its length. -/
theorem build_index_batch_integrity_witness :
    ((build_index (fun b => b.map fun t => [(t.length : ℚ)]) ragW 1).chunks.getD
        0 default).embedding
      = some ((fun t => [(t.length : ℚ)]) ((ragW.chunks.getD 0 default).text)) :=
  build_index_batch_integrity (fun t => [(t.length : ℚ)]) ragW 1 (by decide) 0 (by decide)

/-! ## Round-trip lemmas and C6 -/

theorem decodeNums_map (l : List ℚ) :
    decodeNums (l.map Json.num) = some l := by
  induction l with
  | nil => rfl
  | cons q qs ih => simp [decodeNums, ih, decodeNum]

theorem decodeChunk_encodeChunk (c : GrammarChunk) :
    decodeChunk (encodeChunk c) = some c := by
  obtain ⟨i, t, s, sn, tp, lang, emb⟩ := c
  cases sn <;> cases tp <;> cases emb <;>
    simp [decodeChunk, encodeChunk, encodeOptStr, encodeEmbedding, decodeStr,
      decodeOptStr, decodeEmbedding, chunkFieldNames, List.lookup, decodeNums_map]

theorem decodeChunks_map (chunks : List GrammarChunk) :
    decodeChunks (chunks.map encodeChunk) = some chunks := by
  induction chunks with
  | nil => rfl
  | cons c cs ih => simp [decodeChunks, decodeChunk_encodeChunk, ih]

/-- C6: persisting a chunk set with attached embeddings (`_save_index`,
rag.py lines 226-233) and loading the artifact back (`_load_index`, lines
235-241) reproduces the chunk sequence field for field — `id`, `text`,
`source`, `sutra_number` (the spec's "reference"), `topic`, `language` and
`embedding`, including absent optional fields, which serialize to `null`
and deserialize to `None` — and rebuilds the embedding matrix row by row
from the chunks. -/
theorem load_save_roundtrip (chunks : List GrammarChunk)
    (_h : ∀ c ∈ chunks, c.embedding ≠ none) :
    load_index (save_index chunks)
      = some { chunks := chunks,
               chunk_embeddings := some (chunks.map fun c => c.embedding.getD []) } := by
  simp [load_index, save_index, List.lookup, decodeChunks_map]

/-- Witness for `load_save_roundtrip` on a one-chunk set with an attached
embedding. -/
theorem load_save_roundtrip_witness :
    load_index (save_index [cEmb])
      = some { chunks := [cEmb],
               chunk_embeddings := some ([cEmb].map fun c => c.embedding.getD []) } :=
  load_save_roundtrip [cEmb] (by decide)

/-! ## Ranking lemmas and C1/C3 -/

theorem filtered_pairs_pairwise (chunks : List GrammarChunk) (sims : List ℚ)
    (topic language : Option String) :
    ((filtered_indices chunks topic language).map fun i => (i, sims.getD i 0)).Pairwise
      fun a b => a.1 < b.1 :=
  List.pairwise_map.mpr (filtered_indices_pairwise chunks topic language)

theorem sortedAsc_reverse_eq_sortedDesc (sims : List ℚ) (hnodup : sims.Nodup) :
    (sortedAsc sims.enum).reverse = sortedDesc sims.enum := by
  have hperm : (sortedAsc sims.enum).reverse ~ sortedDesc sims.enum :=
    ((List.reverse_perm _).trans (sortedAsc_perm _)).trans (sortedDesc_perm _).symm
  have hne : sims.enum.Pairwise fun a b => a.2 ≠ b.2 := enum_pairwise_snd_ne sims hnodup
  have hsymm : ∀ {x y : ℕ × ℚ}, x.2 ≠ y.2 → y.2 ≠ x.2 := fun h => h.symm
  have hA : ((sortedAsc sims.enum).reverse).Pairwise fun a b => b.2 < a.2 := by
    have h1 : (sortedAsc sims.enum).Pairwise keyAsc :=
      sortedAsc_pairwise _ (enum_pairwise sims)
    have h2 : (sortedAsc sims.enum).Pairwise fun a b => a.2 ≠ b.2 :=
      (List.Perm.pairwise_iff hsymm (sortedAsc_perm sims.enum)).mpr hne
    have h3 : (sortedAsc sims.enum).Pairwise fun a b => a.2 < b.2 :=
      (h1.and h2).imp fun hab => hab.1.resolve_right fun hh => hab.2 hh.1
    rw [List.pairwise_reverse]
    exact h3
  have hB : (sortedDesc sims.enum).Pairwise fun a b => b.2 < a.2 := by
    have h1 : (sortedDesc sims.enum).Pairwise keyDesc :=
      sortedDesc_pairwise _ (enum_pairwise sims)
    have h2 : (sortedDesc sims.enum).Pairwise fun a b => a.2 ≠ b.2 :=
      (List.Perm.pairwise_iff hsymm (sortedDesc_perm sims.enum)).mpr hne
    exact (h1.and h2).imp fun hab => hab.1.resolve_right fun hh => hab.2 hh.1
  haveI : IsAntisymm (ℕ × ℚ) fun a b => b.2 < a.2 :=
    ⟨fun a b h1 h2 => absurd (h1.trans h2) (lt_irrefl _)⟩
  exact List.eq_of_perm_of_sorted hperm hA hB

theorem querySelect_fallback_eq_unfiltered (chunks : List GrammarChunk)
    (sims : List ℚ) (top_k : ℕ) (topic language : Option String)
    (hlen : sims.length = chunks.length)
    (hempty : filtered_indices chunks topic language = [])
    (hnodup : sims.Nodup) :
    querySelect chunks sims top_k topic language
      = querySelect chunks sims top_k none none := by
  by_cases hnil : chunks.length = 0
  · have h0 : filtered_indices chunks none none = [] := by
      rw [filtered_indices_none, hnil]
      rfl
    rw [querySelect_of_filtered_nil _ _ _ _ _ hempty,
      querySelect_of_filtered_nil _ _ _ _ _ h0]
  · have hne : filtered_indices chunks none none ≠ [] := by
      rw [filtered_indices_none]
      intro h
      exact hnil (List.range_eq_nil.mp h)
    rw [querySelect_of_filtered_nil _ _ _ _ _ hempty,
      querySelect_of_filtered_ne _ _ _ _ _ hne, filtered_indices_none, ← hlen,
      range_map_getD_enum, sortedAsc_reverse_eq_sortedDesc sims hnodup]

/-- C1 (amended): for every built index (`chunk_embeddings = some E`,
one row per chunk) and every query whose filters reject every chunk,
`query` falls back silently to ranking the unfiltered full chunk set and
returns its top-K.  Unconditionally — for any scores, tied or not — it
never returns an empty list solely because no chunk matched the filters
(whenever the chunk list is non-empty and `top_k` is positive).
**Whenever the similarity scores are pairwise distinct**, the fallback
result moreover equals the result of the same query with no filters; with
tied scores the two results may differ in order — see the counterexample —
because the no-filter path uses Python's stable `sorted(..., reverse=True)`
while the fallback path uses `np.argsort(...)[::-1]`.  (On tie-free score
vectors every valid argsort produces the same unique ascending order, so
the equality clause is independent of the modelled argsort tie order.) -/
theorem query_filter_fallback (embed_single : String → List ℚ)
    (sim : List ℚ → List ℚ → ℚ) (rag : GrammarRAG) (query_text : String)
    (top_k : ℕ) (topic language : Option String) (E : List (List ℚ))
    (hE : rag.chunk_embeddings = some E)
    (hlen : E.length = rag.chunks.length)
    (hempty : ∀ c ∈ rag.chunks, chunkPasses c topic language = false) :
    (rag.chunks ≠ [] → 0 < top_k →
      query embed_single sim rag query_text top_k topic language ≠ .ok []) ∧
    ((E.map fun e => sim e (embed_single query_text)).Nodup →
      query embed_single sim rag query_text top_k topic language
        = query embed_single sim rag query_text top_k none none) := by
  have hfe : filtered_indices rag.chunks topic language = [] :=
    filtered_indices_eq_nil _ _ _ hempty
  have hlen2 : (E.map fun e => sim e (embed_single query_text)).length
      = rag.chunks.length := by
    rw [List.length_map]
    exact hlen
  constructor
  · intro hchunks hk hcontra
    simp only [query, hE, Except.ok.injEq] at hcontra
    rw [List.map_eq_nil_iff, querySelect_of_filtered_nil _ _ _ _ _ hfe,
      List.take_eq_nil_iff] at hcontra
    rcases hcontra with h | h
    · omega
    · have h0 := congrArg List.length h
      rw [List.length_reverse, (sortedAsc_perm _).length_eq, List.enum_length,
        hlen2] at h0
      exact hchunks (List.length_eq_zero.mp (by simpa using h0))
  · intro hnodup
    simp only [query, hE]
    rw [querySelect_fallback_eq_unfiltered rag.chunks _ top_k topic language
      hlen2 hfe hnodup]

/-- Witness for `query_filter_fallback` on the two-chunk index `ragW`
with distinct scores and a topic filter matching no chunk: both the
unconditional non-emptiness clause and the distinct-scores equality
clause are exercised. -/
theorem query_filter_fallback_witness :
    query (fun _ => [1]) (fun e _ => e.headD 0) ragW "how" 4 (some "zzz") none
      ≠ .ok [] ∧
    query (fun _ => [1]) (fun e _ => e.headD 0) ragW "how" 4 (some "zzz") none
      = query (fun _ => [1]) (fun e _ => e.headD 0) ragW "how" 4 none none :=
  ⟨(query_filter_fallback (fun _ => [1]) (fun e _ => e.headD 0) ragW "how" 4
      (some "zzz") none [[1], [2]] rfl (by decide) (by decide)).1
      (by decide) (by decide),
   (query_filter_fallback (fun _ => [1]) (fun e _ => e.headD 0) ragW "how" 4
      (some "zzz") none [[1], [2]] rfl (by decide) (by decide)).2 (by decide)⟩

/-- C1 counterexample: on the built index `ragTie` both chunks have cosine
similarity exactly `1` to the query vector `[1]` (all norms are `1`, where
`sqrtW` agrees with the float square root).  With the topic filter
`"zzz"` — matched by no chunk — the fallback returns the chunks in
reverse order `[cW1, cW0]`, while the same query with no filters returns
`[cW0, cW1]`: the fallback result does **not** equal the unfiltered
result, refuting the claim's equality clause. -/
theorem query_fallback_tie_ne_unfiltered :
    query (fun _ => [1]) (simVal sqrtW) ragTie "how" 5 (some "zzz") none
      ≠ query (fun _ => [1]) (simVal sqrtW) ragTie "how" 5 none none := by
  have hs : (([[1], [1]] : List (List ℚ)).map fun e => simVal sqrtW e [1])
      = [1, 1] := by
    norm_num [simVal, sqrtW, normSq, dotQ]
  have e1 : query (fun _ => [1]) (simVal sqrtW) ragTie "how" 5 (some "zzz") none
      = .ok ((querySelect [cW0, cW1]
            (([[1], [1]] : List (List ℚ)).map fun e => simVal sqrtW e [1]) 5
            (some "zzz") none).map
          fun p => ([cW0, cW1].getD p.1 default, p.2)) := rfl
  have e2 : query (fun _ => [1]) (simVal sqrtW) ragTie "how" 5 none none
      = .ok ((querySelect [cW0, cW1]
            (([[1], [1]] : List (List ℚ)).map fun e => simVal sqrtW e [1]) 5
            none none).map
          fun p => ([cW0, cW1].getD p.1 default, p.2)) := rfl
  rw [hs] at e1 e2
  rw [show querySelect [cW0, cW1] [1, 1] 5 (some "zzz") none = [(1, 1), (0, 1)]
    from rfl] at e1
  rw [show querySelect [cW0, cW1] [1, 1] 5 none none = [(0, 1), (1, 1)]
    from rfl] at e2
  intro h
  rw [e1, e2] at h
  simp [cW0, cW1] at h
  exact absurd h.1 (by decide)

/-- C3 (amended): every query result is sorted by similarity score
descending in both selection paths.  In the filtered-candidate path
(Python's stable `sorted(..., reverse=True)`, rag.py line 285, also taken
by a query with no filters) ties between equal scores additionally keep
the original chunk order (`keyDesc`).  In the unfiltered fallback path
(`np.argsort(...)[::-1]`, line 287) only the descending score order is
guaranteed: numpy's default quicksort has an unspecified tie order above
its small-sort threshold, so no tie order holds in general — and ties are
in particular **not** broken by original chunk order, as the
counterexample shows in numpy's exactly-modelled small regime. -/
theorem querySelect_ordering (chunks : List GrammarChunk) (sims : List ℚ)
    (top_k : ℕ) (topic language : Option String) :
    (filtered_indices chunks topic language ≠ [] →
      (querySelect chunks sims top_k topic language).Pairwise keyDesc) ∧
    (filtered_indices chunks topic language = [] →
      (querySelect chunks sims top_k topic language).Pairwise
        fun a b => b.2 ≤ a.2) := by
  constructor
  · intro h
    rw [querySelect_of_filtered_ne chunks sims top_k topic language h]
    exact List.Pairwise.sublist (List.take_sublist _ _)
      (sortedDesc_pairwise _ (filtered_pairs_pairwise chunks sims topic language))
  · intro h
    rw [querySelect_of_filtered_nil chunks sims top_k topic language h]
    refine List.Pairwise.sublist (List.take_sublist _ _) ?_
    rw [List.pairwise_reverse]
    exact (sortedAsc_pairwise _ (enum_pairwise sims)).imp fun hab =>
      hab.elim le_of_lt fun hh => le_of_eq hh.1

/-- Witness for `querySelect_ordering`: both branches on a concrete
two-chunk selection. -/
theorem querySelect_ordering_witness :
    (querySelect [cW0, cW1] [1, 2] 5 none none).Pairwise keyDesc ∧
    (querySelect [cW0, cW1] [1, 2] 5 (some "zzz") none).Pairwise
      (fun a b => b.2 ≤ a.2) :=
  ⟨(querySelect_ordering [cW0, cW1] [1, 2] 5 none none).1 (by decide),
   (querySelect_ordering [cW0, cW1] [1, 2] 5 (some "zzz") none).2 (by decide)⟩

/-- C3 counterexample: in the fallback path with two equal scores the
result is `[(1, 1), (0, 1)]` — the tied chunks **not** in original chunk
order — so the claim that ties are broken by original chunk order
(a stable sort, `keyDesc`) in both paths is false.  A two-element array
lies in numpy's insertion-sort regime, where the modelled argsort tie
order is exact, so this is the real program's output. -/
theorem querySelect_fallback_tie_not_stable :
    ¬ (querySelect [cW0, cW1] [1, 1] 5 (some "zzz") none).Pairwise keyDesc := by
  rw [show querySelect [cW0, cW1] [1, 1] 5 (some "zzz") none = [(1, 1), (0, 1)]
    from rfl]
  decide

end Vedyut
